import Mathlib

/-!
# Verification of `tunny`'s `worker.go` (`workerWrapper`)

Shallow embedding of the worker-wrapper protocol of `src/worker.go`.

The Go code runs one goroutine per `workerWrapper` executing `run`:

```
for {
  w.worker.BlockUntilReady()                -- line 112
  select {
  case w.workersChan <- w.reqChan:          -- line 115 (the "offer")
    select {
    case req := <-w.reqChan:                -- line 117
      switch req.(type) {
      case *runRequest:  w.worker.Run(req.getPayload())          -- line 120
      case *processRequest:
        res := w.worker.Process(processReq.getPayload())         -- line 123
        select {
        case processReq.retChan <- res:                          -- line 125
        case <-w.interruptChan: w.interruptChan = make(...)      -- lines 126-127
        }
      }                                     -- no default branch
    case <-w.interruptChan: w.interruptChan = make(...)          -- lines 130-131
    }
  case <-w.closeChan: return                -- lines 133-134
  }
}
-- deferred on exit: w.worker.Terminate(); close(w.closedChan)   -- lines 105-108
```

together with the externally callable operations

```
func (w *workerWrapper) interrupt() { close(w.interruptChan); w.worker.Interrupt() }
func (w *workerWrapper) stop()      { close(w.closeChan) }
func (w *workerWrapper) join()      { <-w.closedChan }
```

We embed this as a labelled transition system.  Channel "closedness" of the
three `chan struct{}` signals is a `Bool` (a closed channel's receive is
permanently ready; `close` of an already-closed channel panics, recorded in
the `panicked` flag).  The `Worker` capability's `Process` is a pure function
`process : Nat -> Nat` over payloads; `Run`, `Interrupt` and `Terminate` are
recorded in observation logs/counters.  Sends on a result-returning request's
return channel are recorded in the `delivered` log as pairs
`(return-channel id, value)`; a channel receives a value exactly when such a
pair is appended, so "the return channel receives nothing" is "no pair with
that id is ever appended".

Each `Action` is one atomic step: either a branch of one of the `select`s
taken by the wrapper goroutine (enabled exactly when the corresponding Go
channel operation is ready), a synchronous call of the worker capability
returning, or an external call of `interrupt()` / `stop()`.  Nondeterminism
of Go's `select` among ready cases is the nondeterministic choice of which
enabled action a trace performs next.
-/

namespace Tunny

/-- The dynamic type of a value received on `reqChan` (`request` interface,
lines 27-29).  `runRequest` and `processRequest` are the two variants matched
by the type switch (lines 118-129); `workRequest` is the embedded base struct
(lines 31-44), whose pointer also implements `request` but is matched by no
case of the switch.  A `processRequest` carries the payload and its own
return channel (line 50), identified here by a `Nat` id. -/
inductive Request where
  | runRequest (payload : Nat)
  | processRequest (payload : Nat) (retChan : Nat)
  | workRequest (payload : Nat)
deriving DecidableEq, Repr

/-- Control location of the `run` goroutine inside the loop of lines 110-137
and the deferred epilogue of lines 105-108. -/
inductive Phase where
  /-- top of the loop, about to call `w.worker.BlockUntilReady()` (line 112). -/
  | ready
  /-- at the outer `select` (line 114): offering `reqChan` on `workersChan`
      while also watching `closeChan`. -/
  | offering
  /-- the offer was taken (line 115 fired); at the inner `select` (line 116)
      waiting on `reqChan` and `interruptChan`. -/
  | waitingReq
  /-- executing `w.worker.Run(payload)` (line 120). -/
  | running (payload : Nat)
  /-- executing `res := w.worker.Process(payload)` (line 123) for a
      `processRequest` with return channel `retChan`. -/
  | processing (payload : Nat) (retChan : Nat)
  /-- at the delivery `select` (line 124), holding the computed result `res`
      for the `processRequest` with payload `payload` and channel `retChan`. -/
  | delivering (payload : Nat) (res : Nat) (retChan : Nat)
  /-- returned from the loop (line 134); deferred `w.worker.Terminate()`
      (line 106) has not run yet. -/
  | terminating
  /-- `w.worker.Terminate()` returned; `close(w.closedChan)` (line 107) has
      not run yet. -/
  | terminated
  /-- the goroutine has exited; `closedChan` is closed. -/
  | closed
deriving DecidableEq, Repr

/-- State of one `workerWrapper` (lines 62-76) plus observation logs. -/
structure WState where
  phase : Phase
  /-- `w.interruptChan` is closed (fired and not yet replaced by
      `make(chan struct{})`). -/
  interruptClosed : Bool
  /-- `w.closeChan` is closed (`stop()` was called). -/
  closeClosed : Bool
  /-- `w.closedChan` is closed (the `run` goroutine has exited). -/
  closedClosed : Bool
  /-- number of completed calls of `w.worker.Terminate()`. -/
  terminateCount : Nat
  /-- number of completed calls of `w.worker.Interrupt()`. -/
  workerInterruptCount : Nat
  /-- observation log: `(payload, retChan)` of each `processRequest`
      received on `reqChan`, in order. -/
  accepted : List (Nat × Nat)
  /-- observation log: each value sent on a return channel, as
      `(retChan, value)`, in order (line 125). -/
  delivered : List (Nat × Nat)
  /-- observation log: payloads passed to `w.worker.Run` (line 120). -/
  runLog : List Nat
  /-- a `close` of an already-closed channel occurred (a Go runtime panic in
      the calling goroutine). -/
  panicked : Bool
deriving DecidableEq, Repr

/-- The state just after `newWorkerWrapper` (lines 78-95): all three signal
channels freshly made (not closed), the goroutine at the top of the loop. -/
def initState : WState :=
  { phase := .ready
    interruptClosed := false
    closeClosed := false
    closedClosed := false
    terminateCount := 0
    workerInterruptCount := 0
    accepted := []
    delivered := []
    runLog := []
    panicked := false }

/-- One atomic step of the system: a `select` branch taken by the wrapper
goroutine, a synchronous capability call returning, or an external call. -/
inductive Action where
  /-- `w.worker.BlockUntilReady()` (line 112) returns. -/
  | blockReady
  /-- outer `select`, case `w.workersChan <- w.reqChan` (line 115): a
      submitter receives the offer. -/
  | offerTaken
  /-- inner `select`, case `req := <-w.reqChan` (line 117): a submitter sends
      the request `r`, and the type switch runs. -/
  | recvReq (r : Request)
  /-- inner `select`, case `<-w.interruptChan` (lines 130-131): enabled only
      while `interruptChan` is closed; replaces it with a fresh channel. -/
  | observeInterruptReq
  /-- `w.worker.Run(payload)` (line 120) returns. -/
  | finishRun
  /-- `res := w.worker.Process(payload)` (line 123) returns. -/
  | finishProcess
  /-- delivery `select`, case `processReq.retChan <- res` (line 125): the
      caller receives the result. -/
  | deliver
  /-- delivery `select`, case `<-w.interruptChan` (lines 126-127): enabled
      only while `interruptChan` is closed; replaces it with a fresh one. -/
  | observeInterruptDeliver
  /-- outer `select`, case `<-w.closeChan` (lines 133-134): enabled only
      while `closeChan` is closed; `return` from the loop. -/
  | observeClose
  /-- deferred `w.worker.Terminate()` (line 106) runs and returns. -/
  | doTerminate
  /-- deferred `close(w.closedChan)` (line 107) runs. -/
  | signalClosed
  /-- external call of `w.interrupt()` (lines 99-102):
      `close(w.interruptChan); w.worker.Interrupt()`. -/
  | interruptCall
  /-- external call of `w.stop()` (lines 142-144): `close(w.closeChan)`. -/
  | stopCall
deriving DecidableEq, Repr

/-- The transition function: `step process s a = some s'` when action `a` is
enabled in state `s` (the corresponding channel operation is ready / the
goroutine is at that location) and leads to `s'`; `none` when `a` is not
enabled in `s`.  `process` is the Worker capability's `Process`. -/
def step (process : Nat → Nat) (s : WState) : Action → Option WState
  | .blockReady =>
      match s.phase with
      | .ready => some { s with phase := .offering }
      | _ => none
  | .offerTaken =>
      match s.phase with
      | .offering => some { s with phase := .waitingReq }
      | _ => none
  | .recvReq r =>
      match s.phase with
      | .waitingReq =>
          match r with
          | .runRequest p => some { s with phase := .running p }
          | .processRequest p c =>
              some { s with phase := .processing p c, accepted := s.accepted ++ [(p, c)] }
          | .workRequest _ => some { s with phase := .ready }
      | _ => none
  | .observeInterruptReq =>
      match s.phase with
      | .waitingReq =>
          if s.interruptClosed then
            some { s with phase := .ready, interruptClosed := false }
          else none
      | _ => none
  | .finishRun =>
      match s.phase with
      | .running p => some { s with phase := .ready, runLog := s.runLog ++ [p] }
      | _ => none
  | .finishProcess =>
      match s.phase with
      | .processing p c => some { s with phase := .delivering p (process p) c }
      | _ => none
  | .deliver =>
      match s.phase with
      | .delivering _ r c =>
          some { s with phase := .ready, delivered := s.delivered ++ [(c, r)] }
      | _ => none
  | .observeInterruptDeliver =>
      match s.phase with
      | .delivering _ _ _ =>
          if s.interruptClosed then
            some { s with phase := .ready, interruptClosed := false }
          else none
      | _ => none
  | .observeClose =>
      match s.phase with
      | .offering =>
          if s.closeClosed then some { s with phase := .terminating } else none
      | _ => none
  | .doTerminate =>
      match s.phase with
      | .terminating =>
          some { s with phase := .terminated, terminateCount := s.terminateCount + 1 }
      | _ => none
  | .signalClosed =>
      match s.phase with
      | .terminated => some { s with phase := .closed, closedClosed := true }
      | _ => none
  | .interruptCall =>
      if s.interruptClosed then
        -- `close` of an already-closed channel panics (before `w.worker.Interrupt()`).
        some { s with panicked := true }
      else
        some { s with interruptClosed := true,
                      workerInterruptCount := s.workerInterruptCount + 1 }
  | .stopCall =>
      if s.closeClosed then
        some { s with panicked := true }
      else
        some { s with closeClosed := true }

/-- Run a list of actions from a state; `none` if some action is not enabled
where it occurs. -/
def steps (process : Nat → Nat) : WState → List Action → Option WState
  | s, [] => some s
  | s, a :: as =>
      match step process s a with
      | some s' => steps process s' as
      | none => none

/-- `join()` (lines 146-148) returns exactly when `closedChan` is closed:
receiving from a closed channel completes immediately, and `closedChan` is
never sent on.  `join` reads the state without modifying it. -/
def canJoin (s : WState) : Bool := s.closedClosed

/-- The `processRequest` currently held by the wrapper goroutine (received on
`reqChan` but whose delivery `select` has not yet resolved), as
`(payload, retChan)`. -/
def pendingProc : Phase → Option (Nat × Nat)
  | .processing p c => some (p, c)
  | .delivering p _ c => some (p, c)
  | _ => none

/-- A state is reachable when some action list leads to it from `initState`. -/
def Reachable (process : Nat → Nat) (s : WState) : Prop :=
  ∃ acts, steps process initState acts = some s

/-! ## Helper lemmas -/

/-- Inversion: a successful step is exactly one of the transitions of the
run loop / external operations, with the stated enabling condition and
resulting state. -/
theorem step_cases {f : Nat → Nat} {s s' : WState} {a : Action}
    (h : step f s a = some s') :
    (a = .blockReady ∧ s.phase = .ready ∧ s' = { s with phase := .offering })
  ∨ (a = .offerTaken ∧ s.phase = .offering ∧ s' = { s with phase := .waitingReq })
  ∨ (∃ p, a = .recvReq (.runRequest p) ∧ s.phase = .waitingReq ∧
      s' = { s with phase := .running p })
  ∨ (∃ p c, a = .recvReq (.processRequest p c) ∧ s.phase = .waitingReq ∧
      s' = { s with phase := .processing p c, accepted := s.accepted ++ [(p, c)] })
  ∨ (∃ p, a = .recvReq (.workRequest p) ∧ s.phase = .waitingReq ∧
      s' = { s with phase := .ready })
  ∨ (a = .observeInterruptReq ∧ s.phase = .waitingReq ∧ s.interruptClosed = true ∧
      s' = { s with phase := .ready, interruptClosed := false })
  ∨ (∃ p, a = .finishRun ∧ s.phase = .running p ∧
      s' = { s with phase := .ready, runLog := s.runLog ++ [p] })
  ∨ (∃ p c, a = .finishProcess ∧ s.phase = .processing p c ∧
      s' = { s with phase := .delivering p (f p) c })
  ∨ (∃ p r c, a = .deliver ∧ s.phase = .delivering p r c ∧
      s' = { s with phase := .ready, delivered := s.delivered ++ [(c, r)] })
  ∨ (∃ p r c, a = .observeInterruptDeliver ∧ s.phase = .delivering p r c ∧
      s.interruptClosed = true ∧ s' = { s with phase := .ready, interruptClosed := false })
  ∨ (a = .observeClose ∧ s.phase = .offering ∧ s.closeClosed = true ∧
      s' = { s with phase := .terminating })
  ∨ (a = .doTerminate ∧ s.phase = .terminating ∧
      s' = { s with phase := .terminated, terminateCount := s.terminateCount + 1 })
  ∨ (a = .signalClosed ∧ s.phase = .terminated ∧
      s' = { s with phase := .closed, closedClosed := true })
  ∨ (a = .interruptCall ∧ s.interruptClosed = true ∧ s' = { s with panicked := true })
  ∨ (a = .interruptCall ∧ s.interruptClosed = false ∧
      s' = { s with interruptClosed := true,
                    workerInterruptCount := s.workerInterruptCount + 1 })
  ∨ (a = .stopCall ∧ s.closeClosed = true ∧ s' = { s with panicked := true })
  ∨ (a = .stopCall ∧ s.closeClosed = false ∧ s' = { s with closeClosed := true }) := by
  cases a with
  | blockReady =>
      simp only [step] at h
      split at h
      · rename_i hph
        simp only [Option.some.injEq] at h
        exact Or.inl ⟨rfl, hph, h.symm⟩
      · simp at h
  | offerTaken =>
      simp only [step] at h
      split at h
      · rename_i hph
        simp only [Option.some.injEq] at h
        refine Or.inr (Or.inl ⟨rfl, hph, h.symm⟩)
      · simp at h
  | recvReq r =>
      simp only [step] at h
      split at h
      · rename_i hph
        split at h
        · rename_i p
          simp only [Option.some.injEq] at h
          exact Or.inr (Or.inr (Or.inl ⟨p, rfl, hph, h.symm⟩))
        · rename_i p c
          simp only [Option.some.injEq] at h
          exact Or.inr (Or.inr (Or.inr (Or.inl ⟨p, c, rfl, hph, h.symm⟩)))
        · rename_i p
          simp only [Option.some.injEq] at h
          exact Or.inr (Or.inr (Or.inr (Or.inr (Or.inl ⟨p, rfl, hph, h.symm⟩))))
      · simp at h
  | observeInterruptReq =>
      simp only [step] at h
      split at h
      · rename_i hph
        split at h
        · rename_i hint
          simp only [Option.some.injEq] at h
          refine Or.inr (Or.inr (Or.inr (Or.inr (Or.inr (Or.inl ⟨rfl, hph, hint, h.symm⟩)))))
        · simp at h
      · simp at h
  | finishRun =>
      simp only [step] at h
      split at h
      · rename_i p hph
        simp only [Option.some.injEq] at h
        refine Or.inr (Or.inr (Or.inr (Or.inr (Or.inr (Or.inr (Or.inl ⟨p, rfl, hph, h.symm⟩))))))
      · simp at h
  | finishProcess =>
      simp only [step] at h
      split at h
      · rename_i p c hph
        simp only [Option.some.injEq] at h
        refine Or.inr (Or.inr (Or.inr (Or.inr (Or.inr (Or.inr (Or.inr (Or.inl
          ⟨p, c, rfl, hph, h.symm⟩)))))))
      · simp at h
  | deliver =>
      simp only [step] at h
      split at h
      · rename_i p r c hph
        simp only [Option.some.injEq] at h
        refine Or.inr (Or.inr (Or.inr (Or.inr (Or.inr (Or.inr (Or.inr (Or.inr (Or.inl
          ⟨p, r, c, rfl, hph, h.symm⟩))))))))
      · simp at h
  | observeInterruptDeliver =>
      simp only [step] at h
      split at h
      · rename_i p r c hph
        split at h
        · rename_i hint
          simp only [Option.some.injEq] at h
          refine Or.inr (Or.inr (Or.inr (Or.inr (Or.inr (Or.inr (Or.inr (Or.inr (Or.inr (Or.inl
            ⟨p, r, c, rfl, hph, hint, h.symm⟩)))))))))
        · simp at h
      · simp at h
  | observeClose =>
      simp only [step] at h
      split at h
      · rename_i hph
        split at h
        · rename_i hcl
          simp only [Option.some.injEq] at h
          refine Or.inr (Or.inr (Or.inr (Or.inr (Or.inr (Or.inr (Or.inr (Or.inr (Or.inr (Or.inr
            (Or.inl ⟨rfl, hph, hcl, h.symm⟩))))))))))
        · simp at h
      · simp at h
  | doTerminate =>
      simp only [step] at h
      split at h
      · rename_i hph
        simp only [Option.some.injEq] at h
        refine Or.inr (Or.inr (Or.inr (Or.inr (Or.inr (Or.inr (Or.inr (Or.inr (Or.inr (Or.inr
          (Or.inr (Or.inl ⟨rfl, hph, h.symm⟩)))))))))))
      · simp at h
  | signalClosed =>
      simp only [step] at h
      split at h
      · rename_i hph
        simp only [Option.some.injEq] at h
        refine Or.inr (Or.inr (Or.inr (Or.inr (Or.inr (Or.inr (Or.inr (Or.inr (Or.inr (Or.inr
          (Or.inr (Or.inr (Or.inl ⟨rfl, hph, h.symm⟩))))))))))))
      · simp at h
  | interruptCall =>
      simp only [step] at h
      split at h
      · rename_i hint
        simp only [Option.some.injEq] at h
        refine Or.inr (Or.inr (Or.inr (Or.inr (Or.inr (Or.inr (Or.inr (Or.inr (Or.inr (Or.inr
          (Or.inr (Or.inr (Or.inr (Or.inl ⟨rfl, hint, h.symm⟩)))))))))))))
      · rename_i hint
        simp only [Option.some.injEq] at h
        simp only [Bool.not_eq_true] at hint
        refine Or.inr (Or.inr (Or.inr (Or.inr (Or.inr (Or.inr (Or.inr (Or.inr (Or.inr (Or.inr
          (Or.inr (Or.inr (Or.inr (Or.inr (Or.inl ⟨rfl, hint, h.symm⟩))))))))))))))
  | stopCall =>
      simp only [step] at h
      split at h
      · rename_i hcl
        simp only [Option.some.injEq] at h
        refine Or.inr (Or.inr (Or.inr (Or.inr (Or.inr (Or.inr (Or.inr (Or.inr (Or.inr (Or.inr
          (Or.inr (Or.inr (Or.inr (Or.inr (Or.inr (Or.inl ⟨rfl, hcl, h.symm⟩)))))))))))))))
      · rename_i hcl
        simp only [Option.some.injEq] at h
        simp only [Bool.not_eq_true] at hcl
        exact Or.inr (Or.inr (Or.inr (Or.inr (Or.inr (Or.inr (Or.inr (Or.inr (Or.inr (Or.inr
          (Or.inr (Or.inr (Or.inr (Or.inr (Or.inr (Or.inr ⟨rfl, hcl, h.symm⟩)))))))))))))))

/-- Trace induction: a property preserved by every step occurring in the
trace propagates from the start state to the end state. -/
theorem steps_invariant {f : Nat → Nat} (P : WState → Prop) (A : Action → Prop)
    (hstep : ∀ s₁ a s₂, A a → step f s₁ a = some s₂ → P s₁ → P s₂) :
    ∀ (acts : List Action) (s0 s : WState), (∀ a ∈ acts, A a) →
      P s0 → steps f s0 acts = some s → P s := by
  intro acts
  induction acts with
  | nil =>
      intro s0 s _ h0 h
      simp only [steps, Option.some.injEq] at h
      subst h; exact h0
  | cons a as ih =>
      intro s0 s hA h0 h
      simp only [steps] at h
      cases hs : step f s0 a with
      | none => rw [hs] at h; simp at h
      | some s1 =>
          simp only [hs] at h
          exact ih s1 s (fun b hb => hA b (List.mem_cons_of_mem a hb))
            (hstep s0 a s1 (hA a (List.mem_cons_self a as)) hs h0) h

/-- The only action that fires the interrupt signal is `interruptCall`:
along any other step, an unfired interrupt signal stays unfired (the wrapper
replaces it only after it has fired). -/
theorem interruptClosed_of_step {f : Nat → Nat} {s s' : WState} {a : Action}
    (ha : a ≠ Action.interruptCall) (hi : s.interruptClosed = false)
    (h : step f s a = some s') : s'.interruptClosed = false := by
  rcases step_cases h with
      ⟨rfl, hph, rfl⟩ | ⟨rfl, hph, rfl⟩ | ⟨p, rfl, hph, rfl⟩ | ⟨p, c, rfl, hph, rfl⟩ |
      ⟨p, rfl, hph, rfl⟩ | ⟨rfl, hph, hint, rfl⟩ | ⟨p, rfl, hph, rfl⟩ |
      ⟨p, c, rfl, hph, rfl⟩ | ⟨p, r, c, rfl, hph, rfl⟩ | ⟨p, r, c, rfl, hph, hint, rfl⟩ |
      ⟨rfl, hph, hcl, rfl⟩ | ⟨rfl, hph, rfl⟩ | ⟨rfl, hph, rfl⟩ | ⟨rfl, hint, rfl⟩ |
      ⟨rfl, hint, rfl⟩ | ⟨rfl, hcl, rfl⟩ | ⟨rfl, hcl, rfl⟩ <;>
    first
      | exact hi
      | rfl
      | exact absurd rfl ha

/-- `deliveredOf process (payload, retChan)` is the log entry a completed
delivery of that `processRequest` appends: its result on its own channel. -/
def deliveredOf (process : Nat → Nat) (pc : Nat × Nat) : Nat × Nat :=
  (pc.2, process pc.1)

/-- Invariant tying the delivery log to the acceptance log while no interrupt
is pending: every accepted `processRequest` except a possibly still-pending
one has had exactly its `Process` result sent on exactly its own channel, in
acceptance order; and a held result is the `Process` output of the held
payload. -/
def ProcInv (process : Nat → Nat) (s : WState) : Prop :=
  (∃ done, s.accepted = done ++ (pendingProc s.phase).toList ∧
           s.delivered = done.map (deliveredOf process)) ∧
  (∀ p r c, s.phase = .delivering p r c → r = process p)

theorem procInv_init (f : Nat → Nat) : ProcInv f initState := by
  refine ⟨⟨[], by simp [initState, pendingProc], by simp [initState]⟩, ?_⟩
  intro p r c h
  simp [initState] at h

theorem procInv_step {f : Nat → Nat} {s s' : WState} {a : Action}
    (ha : a ≠ Action.interruptCall) (hi : s.interruptClosed = false)
    (h : step f s a = some s') (hP : ProcInv f s) : ProcInv f s' := by
  obtain ⟨⟨done, hacc, hdel⟩, hres⟩ := hP
  rcases step_cases h with
      ⟨rfl, hph, rfl⟩ | ⟨rfl, hph, rfl⟩ | ⟨p, rfl, hph, rfl⟩ | ⟨p, c, rfl, hph, rfl⟩ |
      ⟨p, rfl, hph, rfl⟩ | ⟨rfl, hph, hint, rfl⟩ | ⟨p, rfl, hph, rfl⟩ |
      ⟨p, c, rfl, hph, rfl⟩ | ⟨p, r, c, rfl, hph, rfl⟩ | ⟨p, r, c, rfl, hph, hint, rfl⟩ |
      ⟨rfl, hph, hcl, rfl⟩ | ⟨rfl, hph, rfl⟩ | ⟨rfl, hph, rfl⟩ | ⟨rfl, hint, rfl⟩ |
      ⟨rfl, hint, rfl⟩ | ⟨rfl, hcl, rfl⟩ | ⟨rfl, hcl, rfl⟩
  -- blockReady
  · exact ⟨⟨done, by simpa [pendingProc, hph] using hacc, hdel⟩, by simp [pendingProc]⟩
  -- offerTaken
  · exact ⟨⟨done, by simpa [pendingProc, hph] using hacc, hdel⟩, by simp [pendingProc]⟩
  -- recvReq runRequest
  · exact ⟨⟨done, by simpa [pendingProc, hph] using hacc, hdel⟩, by simp [pendingProc]⟩
  -- recvReq processRequest: the accepted log grows by the now-pending unit
  · refine ⟨⟨done, ?_, by simpa using hdel⟩, by simp⟩
    have : s.accepted = done := by simpa [pendingProc, hph] using hacc
    simp [pendingProc, this]
  -- recvReq workRequest
  · exact ⟨⟨done, by simpa [pendingProc, hph] using hacc, hdel⟩, by simp [pendingProc]⟩
  -- observeInterruptReq: disabled, the interrupt signal is unfired
  · exact absurd hi (by simp [hint])
  -- finishRun
  · exact ⟨⟨done, by simpa [pendingProc, hph] using hacc, hdel⟩, by simp [pendingProc]⟩
  -- finishProcess: the held result is the Process output of the held payload
  · refine ⟨⟨done, by simpa [pendingProc, hph] using hacc, by simpa using hdel⟩, ?_⟩
    intro p' r' c' hc
    simp only [Phase.delivering.injEq] at hc
    obtain ⟨hp, hr, _⟩ := hc
    rw [← hp, ← hr]
  -- deliver: the pending unit's result goes on its own channel, once
  · have hrp : r = f p := hres p r c hph
    refine ⟨⟨done ++ [(p, c)], ?_, ?_⟩, by simp [pendingProc]⟩
    · simpa [pendingProc, hph] using hacc
    · simp [hdel, hrp, deliveredOf]
  -- observeInterruptDeliver: disabled
  · exact absurd hi (by simp [hint])
  -- observeClose
  · exact ⟨⟨done, by simpa [pendingProc, hph] using hacc, hdel⟩, by simp [pendingProc]⟩
  -- doTerminate
  · exact ⟨⟨done, by simpa [pendingProc, hph] using hacc, hdel⟩, by simp [pendingProc]⟩
  -- signalClosed
  · exact ⟨⟨done, by simpa [pendingProc, hph] using hacc, hdel⟩, by simp [pendingProc]⟩
  -- interruptCall (both branches): excluded by hypothesis
  · exact absurd rfl ha
  · exact absurd rfl ha
  -- stopCall (both branches): the phase is unchanged
  · exact ⟨⟨done, by simpa using hacc, hdel⟩,
      fun p r c hc => hres p r c (by simpa using hc)⟩
  · exact ⟨⟨done, by simpa using hacc, hdel⟩,
      fun p r c hc => hres p r c (by simpa using hc)⟩

/-- Interrupt-free executions keep the interrupt signal unfired and satisfy
`ProcInv`. -/
theorem procInv_no_interrupt (f : Nat → Nat) (acts : List Action) (s : WState)
    (hni : Action.interruptCall ∉ acts)
    (h : steps f initState acts = some s) :
    s.interruptClosed = false ∧ ProcInv f s := by
  refine steps_invariant (fun t => t.interruptClosed = false ∧ ProcInv f t)
      (fun a => a ≠ Action.interruptCall) ?_ acts initState s
      (fun a ha heq => hni (heq ▸ ha)) ⟨rfl, procInv_init f⟩ h
  rintro s₁ a s₂ hA hs ⟨hi, hP⟩
  exact ⟨interruptClosed_of_step hA hi hs, procInv_step hA hi hs hP⟩

/-! ## Claims -/

/-- **C1** — For every result-returning work unit (`processRequest`)
received by a worker wrapper, if no `interrupt()` call fires and no `stop()`
occurs, the unit's return channel receives exactly one value, equal to the
Worker capability's `Process` output for that unit's payload; the value is
sent only on that unit's own return channel (never misdelivered) and never
sent twice.  Formally: in any interrupt-free, stop-free execution, the
delivery log is exactly the image under `payload ↦ (own channel, Process
payload)` of the acceptance log (minus the one unit still in flight, if
any) — one entry per completed unit, on its channel, with its result, in
order. -/
theorem c1_process_result_exact_delivery (process : Nat → Nat)
    (acts : List Action) (s : WState)
    (h : steps process initState acts = some s)
    (hni : Action.interruptCall ∉ acts) (_hns : Action.stopCall ∉ acts) :
    ∃ done, s.accepted = done ++ (pendingProc s.phase).toList ∧
            s.delivered = done.map (deliveredOf process) :=
  ((procInv_no_interrupt process acts s hni h).2).1

/-- The spec's §8 scenario trace for C1: `Process` doubles its input, one
result-returning unit with payload 21 and return channel 0 is submitted and
delivered. -/
def c1Acts : List Action :=
  [.blockReady, .offerTaken, .recvReq (.processRequest 21 0), .finishProcess, .deliver]

/-- The state reached by `c1Acts`: the unit's channel received exactly
`42 = Process 21`. -/
def c1Final : WState :=
  { phase := .ready
    interruptClosed := false
    closeClosed := false
    closedClosed := false
    terminateCount := 0
    workerInterruptCount := 0
    accepted := [(21, 0)]
    delivered := [(0, 42)]
    runLog := []
    panicked := false }

/-- Witness for C1 at the spec's §8 scenario (payload 21, doubling worker). -/
theorem c1_witness :
    ∃ done, c1Final.accepted = done ++ (pendingProc c1Final.phase).toList ∧
            c1Final.delivered = done.map (deliveredOf (fun n => n + n)) :=
  c1_process_result_exact_delivery (fun n => n + n) c1Acts c1Final
    (by decide) (by decide) (by decide)

/-- A reachable state in the inner waiting step (the offer was taken, the
wrapper waits at the `select` of line 116) with the close signal already
fired: reached by `[blockReady, offerTaken, stopCall]`. -/
def c2State : WState :=
  { phase := .waitingReq
    interruptClosed := false
    closeClosed := true
    closedClosed := false
    terminateCount := 0
    workerInterruptCount := 0
    accepted := []
    delivered := []
    runLog := []
    panicked := false }

/-- **C2 counterexample** — The claim says the close signal is one of the
possible outcomes of the waiting step entered after the offer is taken.  It
is not: the inner `select` (lines 116-132) has no `closeChan` case.  In the
reachable state `c2State` (inner wait, `closeChan` already closed), the
close-observation branch is not enabled, and no single step of that waiting
step observes the close signal or leaves the loop. -/
theorem c2_counterexample :
    steps (fun n => n + n) initState [.blockReady, .offerTaken, .stopCall] = some c2State
    ∧ c2State.closeClosed = true
    ∧ step (fun n => n + n) c2State .observeClose = none
    ∧ ∀ a s', step (fun n => n + n) c2State a = some s' →
        s'.phase ≠ Phase.terminating ∧ s'.phase ≠ Phase.terminated ∧
        s'.phase ≠ Phase.closed := by
  refine ⟨by decide, rfl, rfl, ?_⟩
  intro a s' h
  rcases step_cases h with
      ⟨rfl, hq, rfl⟩ | ⟨rfl, hq, rfl⟩ | ⟨p, rfl, hq, rfl⟩ | ⟨p, c, rfl, hq, rfl⟩ |
      ⟨p, rfl, hq, rfl⟩ | ⟨rfl, hq, hint, rfl⟩ | ⟨p, rfl, hq, rfl⟩ |
      ⟨p, c, rfl, hq, rfl⟩ | ⟨p, r, c, rfl, hq, rfl⟩ | ⟨p, r, c, rfl, hq, hint, rfl⟩ |
      ⟨rfl, hq, hcl, rfl⟩ | ⟨rfl, hq, rfl⟩ | ⟨rfl, hq, rfl⟩ | ⟨rfl, hint, rfl⟩ |
      ⟨rfl, hint, rfl⟩ | ⟨rfl, hcl, rfl⟩ | ⟨rfl, hcl, rfl⟩ <;>
    simp_all [c2State]

/-- **C2 (amended)** — In the waiting step a wrapper enters after its offer
is taken, exactly one of TWO mutually exclusive outcomes resolves the step:
a request arrives on `reqChan`, or the (fired) interrupt signal is observed.
The close signal is NOT among the outcomes observable in that step: no such
step leaves the run loop (the close signal is only observed in the outer
`select`, while `Offering`). -/
theorem c2_amended_inner_wait_two_outcomes (process : Nat → Nat)
    (s s' : WState) (a : Action)
    (hph : s.phase = Phase.waitingReq) (h : step process s a = some s')
    (hch : s'.phase ≠ Phase.waitingReq) :
    ((∃ r, a = Action.recvReq r)
      ∨ (a = Action.observeInterruptReq ∧ s.interruptClosed = true))
    ∧ s'.phase ≠ Phase.terminating ∧ s'.phase ≠ Phase.terminated ∧
      s'.phase ≠ Phase.closed := by
  rcases step_cases h with
      ⟨rfl, hq, rfl⟩ | ⟨rfl, hq, rfl⟩ | ⟨p, rfl, hq, rfl⟩ | ⟨p, c, rfl, hq, rfl⟩ |
      ⟨p, rfl, hq, rfl⟩ | ⟨rfl, hq, hint, rfl⟩ | ⟨p, rfl, hq, rfl⟩ |
      ⟨p, c, rfl, hq, rfl⟩ | ⟨p, r, c, rfl, hq, rfl⟩ | ⟨p, r, c, rfl, hq, hint, rfl⟩ |
      ⟨rfl, hq, hcl, rfl⟩ | ⟨rfl, hq, rfl⟩ | ⟨rfl, hq, rfl⟩ | ⟨rfl, hint, rfl⟩ |
      ⟨rfl, hint, rfl⟩ | ⟨rfl, hcl, rfl⟩ | ⟨rfl, hcl, rfl⟩ <;>
    simp_all

/-- Witness for the amended C2: in `c2State` a fire-and-forget request with
payload 7 arrives; the step's outcome is the request arrival, and it does
not leave the loop. -/
theorem c2_amended_witness :
    ((∃ r, Action.recvReq (Request.runRequest 7) = Action.recvReq r)
      ∨ (Action.recvReq (Request.runRequest 7) = Action.observeInterruptReq ∧
          c2State.interruptClosed = true))
    ∧ ({ c2State with phase := Phase.running 7 } : WState).phase ≠ Phase.terminating
    ∧ ({ c2State with phase := Phase.running 7 } : WState).phase ≠ Phase.terminated
    ∧ ({ c2State with phase := Phase.running 7 } : WState).phase ≠ Phase.closed :=
  c2_amended_inner_wait_two_outcomes (fun n => n + n) c2State
    { c2State with phase := Phase.running 7 } (Action.recvReq (Request.runRequest 7))
    rfl (by decide) (by decide)

/-- The trace refuting C3: unit A (payload 1, channel 0) is processed and
delivered; `interrupt()` is then called while the wrapper is back in
`Offering` with no unit in flight; unit B (payload 5, channel 1) is
submitted next.  Because `interrupt()` only closes `interruptChan` (line
100) and the fired signal is replaced only when a *wait* observes it (lines
127, 131), the stale signal is still fired during B's delivery wait and the
delivery `select` may take the interrupt branch, discarding B's result. -/
def c3Acts : List Action :=
  [.blockReady, .offerTaken, .recvReq (.processRequest 1 0), .finishProcess, .deliver,
   .blockReady, .interruptCall, .offerTaken, .recvReq (.processRequest 5 1),
   .finishProcess, .observeInterruptDeliver]

/-- Final state of `c3Acts` (with a doubling worker): B was accepted and
processed, but channel 1 received nothing. -/
def c3Final : WState :=
  { phase := .ready
    interruptClosed := false
    closeClosed := false
    closedClosed := false
    terminateCount := 0
    workerInterruptCount := 1
    accepted := [(1, 0), (5, 1)]
    delivered := [(0, 2)]
    runLog := []
    panicked := false }

/-- **C3 counterexample** — The claim says an `interrupt()` fired in
`Offering` with no unit in flight has no observable effect on the next
accepted unit B, which must receive its correct result.  The execution
`c3Acts` is valid, B (payload 5, channel 1) is submitted after such an
interrupt, yet at its end the delivery log holds only A's entry `(0, 2)`
and nothing is pending: B's return channel never received a value. -/
theorem c3_counterexample :
    steps (fun n => n + n) initState c3Acts = some c3Final
    ∧ c3Final.accepted = [(1, 0), (5, 1)]
    ∧ c3Final.delivered = [(0, 2)]
    ∧ pendingProc c3Final.phase = none := by decide

/-- **C3 (amended)** — Calling `interrupt()` while the wrapper is in
`Offering` with no unit in flight leaves the interrupt signal fired (it is
replaced only when a later wait observes it), so it can affect the next
unit: from any such state, for every payload and return channel there is an
execution in which the next unit B is accepted and processed but the stale
signal short-circuits B's delivery wait, so B's result is discarded and its
return channel receives nothing. -/
theorem c3_amended_offering_interrupt_can_drop_next_result (process : Nat → Nat)
    (s : WState) (p c : Nat)
    (hph : s.phase = Phase.offering) (hi : s.interruptClosed = false) :
    ∃ s', steps process s
        [.interruptCall, .offerTaken, .recvReq (.processRequest p c),
         .finishProcess, .observeInterruptDeliver] = some s'
      ∧ s'.delivered = s.delivered
      ∧ s'.accepted = s.accepted ++ [(p, c)]
      ∧ s'.phase = Phase.ready
      ∧ s'.interruptClosed = false := by
  refine ⟨{ s with
      phase := Phase.ready
      interruptClosed := false
      workerInterruptCount := s.workerInterruptCount + 1
      accepted := s.accepted ++ [(p, c)] }, ?_, rfl, rfl, rfl, rfl⟩
  simp [steps, step, hph, hi]

/-- A wrapper in `Offering`, idle, with an unfired interrupt signal. -/
def c3OfferingState : WState :=
  { phase := .offering
    interruptClosed := false
    closeClosed := false
    closedClosed := false
    terminateCount := 0
    workerInterruptCount := 0
    accepted := []
    delivered := []
    runLog := []
    panicked := false }

/-- Witness for the amended C3 at payload 5, channel 1, doubling worker. -/
theorem c3_amended_witness :
    ∃ s', steps (fun n => n + n) c3OfferingState
        [.interruptCall, .offerTaken, .recvReq (.processRequest 5 1),
         .finishProcess, .observeInterruptDeliver] = some s'
      ∧ s'.delivered = c3OfferingState.delivered
      ∧ s'.accepted = c3OfferingState.accepted ++ [(5, 1)]
      ∧ s'.phase = Phase.ready
      ∧ s'.interruptClosed = false :=
  c3_amended_offering_interrupt_can_drop_next_result (fun n => n + n)
    c3OfferingState 5 1 rfl rfl

/-- Final state of calling `interrupt()` twice with no intervening re-arm:
the second `close(w.interruptChan)` paniced. -/
def c4Final : WState :=
  { phase := .ready
    interruptClosed := true
    closeClosed := false
    closedClosed := false
    terminateCount := 0
    workerInterruptCount := 1
    accepted := []
    delivered := []
    runLog := []
    panicked := true }

/-- **C4 counterexample** — The claim says a second `interrupt()` before
the fired signal is replaced has the same non-faulting effect as one call
and that the fault on double-firing is unreachable.  In fact `interrupt()`
is `close(w.interruptChan)` (line 100), and in Go closing an already-closed
channel panics: two consecutive `interrupt()` calls from the initial state
are a valid execution ending with `panicked = true`. -/
theorem c4_counterexample :
    steps (fun n => n + n) initState [.interruptCall, .interruptCall] = some c4Final
    ∧ c4Final.panicked = true := by decide

/-- **C4 (amended)** — `interrupt()` is not idempotent within a period
between re-arms: whenever the interrupt signal is currently fired (closed)
and not yet replaced, a further `interrupt()` call faults (panic on closing
a closed channel); the fault on double-firing is reachable. -/
theorem c4_amended_double_interrupt_faults (process : Nat → Nat) (s : WState)
    (h : s.interruptClosed = true) :
    step process s .interruptCall = some { s with panicked := true } := by
  simp [step, h]

/-- A state whose interrupt signal has fired and was not yet re-armed. -/
def c4Armed : WState :=
  { phase := .offering
    interruptClosed := true
    closeClosed := false
    closedClosed := false
    terminateCount := 0
    workerInterruptCount := 1
    accepted := []
    delivered := []
    runLog := []
    panicked := false }

/-- Witness for the amended C4: a second `interrupt()` in `c4Armed` faults. -/
theorem c4_amended_witness :
    step (fun n => n + n) c4Armed .interruptCall = some { c4Armed with panicked := true } :=
  c4_amended_double_interrupt_faults (fun n => n + n) c4Armed rfl

/-- **C5** — If the interrupt signal has fired while the wrapper is in
`Delivering` (result computed, caller has not collected it), the interrupt
branch of the delivery `select` (lines 126-127) is enabled — the wrapper
need not block forever — and taking it discards the pending result: nothing
is sent on the unit's return channel (the delivery log is unchanged and the
unit is no longer pending), the interrupt signal is replaced with a fresh
(unfired) one, and the wrapper returns to the top of the loop (idle). -/
theorem c5_interrupt_in_delivering_drops_result (process : Nat → Nat)
    (s : WState) (p r c : Nat)
    (hph : s.phase = Phase.delivering p r c) (hint : s.interruptClosed = true) :
    ∃ s', step process s .observeInterruptDeliver = some s'
      ∧ s'.delivered = s.delivered
      ∧ pendingProc s'.phase = none
      ∧ s'.interruptClosed = false
      ∧ s'.phase = Phase.ready := by
  refine ⟨{ s with phase := Phase.ready, interruptClosed := false },
    ?_, rfl, rfl, rfl, rfl⟩
  simp [step, hph, hint]

/-- A wrapper holding result 6 for the unit (payload 3, channel 2), with the
interrupt signal fired and the caller not collecting. -/
def c5State : WState :=
  { phase := .delivering 3 6 2
    interruptClosed := true
    closeClosed := false
    closedClosed := false
    terminateCount := 0
    workerInterruptCount := 1
    accepted := [(3, 2)]
    delivered := []
    runLog := []
    panicked := false }

/-- Witness for C5 at `c5State`. -/
theorem c5_witness :
    ∃ s', step (fun n => n + n) c5State .observeInterruptDeliver = some s'
      ∧ s'.delivered = c5State.delivered
      ∧ pendingProc s'.phase = none
      ∧ s'.interruptClosed = false
      ∧ s'.phase = Phase.ready :=
  c5_interrupt_in_delivering_drops_result (fun n => n + n) c5State 3 6 2 rfl rfl

/-- Lifecycle invariant of reachable states: `Terminate` has run exactly
once iff the loop has been left and the deferred call completed
(`terminated`/`closed`), and `closedChan` is closed exactly in phase
`closed` — i.e. only after `Terminate` completed. -/
def LifecycleInv (s : WState) : Prop :=
  ((s.phase = Phase.terminated ∨ s.phase = Phase.closed) → s.terminateCount = 1)
  ∧ ((s.phase ≠ Phase.terminated ∧ s.phase ≠ Phase.closed) → s.terminateCount = 0)
  ∧ (s.closedClosed = true ↔ s.phase = Phase.closed)

theorem lifecycleInv_init : LifecycleInv initState := by
  refine ⟨?_, ?_, ?_⟩ <;> simp [initState]

theorem lifecycleInv_step {f : Nat → Nat} {s s' : WState} {a : Action}
    (h : step f s a = some s') (hI : LifecycleInv s) : LifecycleInv s' := by
  obtain ⟨h1, h2, h3⟩ := hI
  rcases step_cases h with
      ⟨rfl, hq, rfl⟩ | ⟨rfl, hq, rfl⟩ | ⟨p, rfl, hq, rfl⟩ | ⟨p, c, rfl, hq, rfl⟩ |
      ⟨p, rfl, hq, rfl⟩ | ⟨rfl, hq, hint, rfl⟩ | ⟨p, rfl, hq, rfl⟩ |
      ⟨p, c, rfl, hq, rfl⟩ | ⟨p, r, c, rfl, hq, rfl⟩ | ⟨p, r, c, rfl, hq, hint, rfl⟩ |
      ⟨rfl, hq, hcl, rfl⟩ | ⟨rfl, hq, rfl⟩ | ⟨rfl, hq, rfl⟩ | ⟨rfl, hint, rfl⟩ |
      ⟨rfl, hint, rfl⟩ | ⟨rfl, hcl, rfl⟩ | ⟨rfl, hcl, rfl⟩ <;>
    simp_all [LifecycleInv]

/-- Every reachable state satisfies `LifecycleInv`. -/
theorem lifecycleInv_reachable (f : Nat → Nat) (acts : List Action) (s : WState)
    (h : steps f initState acts = some s) : LifecycleInv s :=
  steps_invariant LifecycleInv (fun _ => True)
    (fun _ _ _ _ hs hP => lifecycleInv_step hs hP)
    acts initState s (fun _ _ => trivial) lifecycleInv_init h

/-- No step un-closes `closeChan`: once `stop()` was called, the close
signal stays fired. -/
theorem closeClosed_mono {f : Nat → Nat} {s s' : WState} {a : Action}
    (h : step f s a = some s') (hc : s.closeClosed = true) :
    s'.closeClosed = true := by
  rcases step_cases h with
      ⟨rfl, hq, rfl⟩ | ⟨rfl, hq, rfl⟩ | ⟨p, rfl, hq, rfl⟩ | ⟨p, c, rfl, hq, rfl⟩ |
      ⟨p, rfl, hq, rfl⟩ | ⟨rfl, hq, hint, rfl⟩ | ⟨p, rfl, hq, rfl⟩ |
      ⟨p, c, rfl, hq, rfl⟩ | ⟨p, r, c, rfl, hq, rfl⟩ | ⟨p, r, c, rfl, hq, hint, rfl⟩ |
      ⟨rfl, hq, hcl, rfl⟩ | ⟨rfl, hq, rfl⟩ | ⟨rfl, hq, rfl⟩ | ⟨rfl, hint, rfl⟩ |
      ⟨rfl, hint, rfl⟩ | ⟨rfl, hcl, rfl⟩ | ⟨rfl, hcl, rfl⟩ <;>
    simp_all

/-- From any state whose close signal has fired (and where the loop-exit
bookkeeping invariant holds), cooperative continuations reach a state with
`closedChan` closed: in-flight work (if any) finishes, its delivery attempt
completes, the outer `select` observes `close`, `Terminate` runs and
`closedChan` is closed.  No deadlock. -/
theorem shutdown_continuation (f : Nat → Nat) (s : WState)
    (hc : s.closeClosed = true)
    (hcl : s.phase = Phase.closed → s.closedClosed = true) :
    ∃ cont s', steps f s cont = some s' ∧ s'.closedClosed = true := by
  cases hph : s.phase with
  | ready =>
      refine ⟨[.blockReady, .observeClose, .doTerminate, .signalClosed],
        { s with phase := Phase.closed, terminateCount := s.terminateCount + 1,
                 closedClosed := true }, ?_, rfl⟩
      simp [steps, step, hph, hc]
  | offering =>
      refine ⟨[.observeClose, .doTerminate, .signalClosed],
        { s with phase := Phase.closed, terminateCount := s.terminateCount + 1,
                 closedClosed := true }, ?_, rfl⟩
      simp [steps, step, hph, hc]
  | waitingReq =>
      refine ⟨[.recvReq (.runRequest 0), .finishRun, .blockReady, .observeClose,
               .doTerminate, .signalClosed],
        { s with phase := Phase.closed, runLog := s.runLog ++ [0],
                 terminateCount := s.terminateCount + 1, closedClosed := true }, ?_, rfl⟩
      simp [steps, step, hph, hc]
  | running p =>
      refine ⟨[.finishRun, .blockReady, .observeClose, .doTerminate, .signalClosed],
        { s with phase := Phase.closed, runLog := s.runLog ++ [p],
                 terminateCount := s.terminateCount + 1, closedClosed := true }, ?_, rfl⟩
      simp [steps, step, hph, hc]
  | processing p c =>
      refine ⟨[.finishProcess, .deliver, .blockReady, .observeClose,
               .doTerminate, .signalClosed],
        { s with phase := Phase.closed, delivered := s.delivered ++ [(c, f p)],
                 terminateCount := s.terminateCount + 1, closedClosed := true }, ?_, rfl⟩
      simp [steps, step, hph, hc]
  | delivering p r c =>
      refine ⟨[.deliver, .blockReady, .observeClose, .doTerminate, .signalClosed],
        { s with phase := Phase.closed, delivered := s.delivered ++ [(c, r)],
                 terminateCount := s.terminateCount + 1, closedClosed := true }, ?_, rfl⟩
      simp [steps, step, hph, hc]
  | terminating =>
      refine ⟨[.doTerminate, .signalClosed],
        { s with phase := Phase.closed, terminateCount := s.terminateCount + 1,
                 closedClosed := true }, ?_, rfl⟩
      simp [steps, step, hph, hc]
  | terminated =>
      refine ⟨[.signalClosed],
        { s with phase := Phase.closed, closedClosed := true }, ?_, rfl⟩
      simp [steps, step, hph]
  | closed => exact ⟨[], s, rfl, hcl hph⟩

/-- **C6** — The close signal is only observed while the wrapper is in
`Offering` (first conjunct: the only step entering the exit path comes from
`Offering` via the close branch of the outer `select`, so an in-progress
execution is never interrupted by `close` — in particular any unit in
flight when `stop()` is called completes its execution and, for
result-returning units, its delivery attempt, before the loop exits);
and `stop()` followed by `join()` always returns (second conjunct: from any
reachable state with the close signal fired — even one where no unit was
ever submitted, or one mid-flight — some cooperative continuation reaches a
state where `closedChan` is closed, i.e. `join()` unblocks). -/
theorem c6_close_only_in_offering_and_stop_join_returns (process : Nat → Nat) :
    (∀ s s' a, step process s a = some s' → s.phase ≠ Phase.terminating →
        s'.phase = Phase.terminating →
        s.phase = Phase.offering ∧ a = Action.observeClose ∧ s.closeClosed = true)
    ∧ (∀ acts s, steps process initState acts = some s → s.closeClosed = true →
        ∃ cont s', steps process s cont = some s' ∧ s'.closedClosed = true) := by
  constructor
  · intro s s' a h hne hterm
    rcases step_cases h with
        ⟨rfl, hq, rfl⟩ | ⟨rfl, hq, rfl⟩ | ⟨p, rfl, hq, rfl⟩ | ⟨p, c, rfl, hq, rfl⟩ |
        ⟨p, rfl, hq, rfl⟩ | ⟨rfl, hq, hint, rfl⟩ | ⟨p, rfl, hq, rfl⟩ |
        ⟨p, c, rfl, hq, rfl⟩ | ⟨p, r, c, rfl, hq, rfl⟩ | ⟨p, r, c, rfl, hq, hint, rfl⟩ |
        ⟨rfl, hq, hcl, rfl⟩ | ⟨rfl, hq, rfl⟩ | ⟨rfl, hq, rfl⟩ | ⟨rfl, hint, rfl⟩ |
        ⟨rfl, hint, rfl⟩ | ⟨rfl, hcl, rfl⟩ | ⟨rfl, hcl, rfl⟩ <;>
      simp_all
  · intro acts s h hc
    exact shutdown_continuation process s hc
      (fun hcl => ((lifecycleInv_reachable process acts s h).2.2).mpr hcl)

/-- Witness for C6: part 1 at the concrete close-observation step from
`c3OfferingState` with the close signal fired, and part 2 on the empty
trace after `stop()` (no unit ever submitted). -/
theorem c6_witness :
    (({ c3OfferingState with closeClosed := true } : WState).phase = Phase.offering
      ∧ Action.observeClose = Action.observeClose
      ∧ ({ c3OfferingState with closeClosed := true } : WState).closeClosed = true)
    ∧ (∃ cont s', steps (fun n => n + n)
          { c3OfferingState with closeClosed := true } cont = some s'
        ∧ s'.closedClosed = true) :=
  ⟨(c6_close_only_in_offering_and_stop_join_returns (fun n => n + n)).1
      { c3OfferingState with closeClosed := true }
      { c3OfferingState with closeClosed := true, phase := Phase.terminating }
      Action.observeClose (by decide) (by decide) (by decide),
   (c6_close_only_in_offering_and_stop_join_returns (fun n => n + n)).2
      [.blockReady, .stopCall] { c3OfferingState with closeClosed := true }
      (by decide) (by decide)⟩

/-- **C7** — In every reachable state in which `join()` has returned
(`closedChan` closed), `Terminate` has been invoked exactly once (first
conjunct, which also places the wrapper in the terminal phase); moreover the
step that closes `closedChan` is exactly the deferred `close(w.closedChan)`,
taken only after `Terminate` has completed (second conjunct: at the moment
`closedChan` flips to closed, `terminateCount` is already 1). -/
theorem c7_terminate_once_before_closed (process : Nat → Nat) :
    (∀ acts s, steps process initState acts = some s → s.closedClosed = true →
        s.terminateCount = 1 ∧ s.phase = Phase.closed)
    ∧ (∀ acts s a s', steps process initState acts = some s →
        step process s a = some s' →
        s.closedClosed = false → s'.closedClosed = true →
        a = Action.signalClosed ∧ s.terminateCount = 1) := by
  constructor
  · intro acts s h hc
    obtain ⟨h1, _, h3⟩ := lifecycleInv_reachable process acts s h
    have hph := h3.mp hc
    exact ⟨h1 (Or.inr hph), hph⟩
  · intro acts s a s' h hs hc hc'
    obtain ⟨h1, _, h3⟩ := lifecycleInv_reachable process acts s h
    rcases step_cases hs with
        ⟨rfl, hq, rfl⟩ | ⟨rfl, hq, rfl⟩ | ⟨p, rfl, hq, rfl⟩ | ⟨p, c, rfl, hq, rfl⟩ |
        ⟨p, rfl, hq, rfl⟩ | ⟨rfl, hq, hint, rfl⟩ | ⟨p, rfl, hq, rfl⟩ |
        ⟨p, c, rfl, hq, rfl⟩ | ⟨p, r, c, rfl, hq, rfl⟩ | ⟨p, r, c, rfl, hq, hint, rfl⟩ |
        ⟨rfl, hq, hcl, rfl⟩ | ⟨rfl, hq, rfl⟩ | ⟨rfl, hq, rfl⟩ | ⟨rfl, hint, rfl⟩ |
        ⟨rfl, hint, rfl⟩ | ⟨rfl, hcl, rfl⟩ | ⟨rfl, hcl, rfl⟩ <;>
      simp_all

/-- State after the straight shutdown trace
`[blockReady, stopCall, observeClose, doTerminate, signalClosed]`. -/
def c7ClosedState : WState :=
  { phase := .closed
    interruptClosed := false
    closeClosed := true
    closedClosed := true
    terminateCount := 1
    workerInterruptCount := 0
    accepted := []
    delivered := []
    runLog := []
    panicked := false }

/-- One step earlier: `Terminate` has completed, `closedChan` not yet
closed. -/
def c7TerminatedState : WState :=
  { phase := .terminated
    interruptClosed := false
    closeClosed := true
    closedClosed := false
    terminateCount := 1
    workerInterruptCount := 0
    accepted := []
    delivered := []
    runLog := []
    panicked := false }

/-- Witness for C7: the straight shutdown trace
`[blockReady, stopCall, observeClose, doTerminate, signalClosed]` (no unit
ever submitted — `stop()` then the loop notices close), checked at its final
state for part 1 and at its last step for part 2. -/
theorem c7_witness :
    (c7ClosedState.terminateCount = 1 ∧ c7ClosedState.phase = Phase.closed)
    ∧ (Action.signalClosed = Action.signalClosed
      ∧ c7TerminatedState.terminateCount = 1) :=
  ⟨(c7_terminate_once_before_closed (fun n => n + n)).1
      [.blockReady, .stopCall, .observeClose, .doTerminate, .signalClosed] _
      (by decide) (by decide),
   (c7_terminate_once_before_closed (fun n => n + n)).2
      [.blockReady, .stopCall, .observeClose, .doTerminate] c7TerminatedState
      Action.signalClosed c7ClosedState
      (by decide) (by decide) (by decide) (by decide)⟩

/-- **C8** — On every loop iteration the wrapper blocks on
`w.worker.BlockUntilReady()` before anything else: from the top of the loop
the only step the wrapper can take is the readiness call returning, and its
outcome is independent of the interrupt and close signals (the resulting
state is exactly the same record with the goroutine moved to the outer
`select`, whatever `interruptClosed` and `closeClosed` are — the wait is
neither interruptible nor cancellable).  Only after readiness does the
wrapper enter a single waiting step whose only resolutions are publication
of its request channel being taken or observation of the close signal. -/
theorem c8_block_until_ready_first_then_offer_or_close (process : Nat → Nat) :
    (∀ s a s', step process s a = some s' → s.phase = Phase.ready →
        s'.phase ≠ Phase.ready →
        a = Action.blockReady ∧ s' = { s with phase := Phase.offering })
    ∧ (∀ s a s', step process s a = some s' → s.phase = Phase.offering →
        s'.phase ≠ Phase.offering →
        (a = Action.offerTaken ∧ s' = { s with phase := Phase.waitingReq })
        ∨ (a = Action.observeClose ∧ s.closeClosed = true ∧
            s' = { s with phase := Phase.terminating })) := by
  constructor
  · intro s a s' h hph hne
    rcases step_cases h with
        ⟨rfl, hq, rfl⟩ | ⟨rfl, hq, rfl⟩ | ⟨p, rfl, hq, rfl⟩ | ⟨p, c, rfl, hq, rfl⟩ |
        ⟨p, rfl, hq, rfl⟩ | ⟨rfl, hq, hint, rfl⟩ | ⟨p, rfl, hq, rfl⟩ |
        ⟨p, c, rfl, hq, rfl⟩ | ⟨p, r, c, rfl, hq, rfl⟩ | ⟨p, r, c, rfl, hq, hint, rfl⟩ |
        ⟨rfl, hq, hcl, rfl⟩ | ⟨rfl, hq, rfl⟩ | ⟨rfl, hq, rfl⟩ | ⟨rfl, hint, rfl⟩ |
        ⟨rfl, hint, rfl⟩ | ⟨rfl, hcl, rfl⟩ | ⟨rfl, hcl, rfl⟩ <;>
      simp_all
  · intro s a s' h hph hne
    rcases step_cases h with
        ⟨rfl, hq, rfl⟩ | ⟨rfl, hq, rfl⟩ | ⟨p, rfl, hq, rfl⟩ | ⟨p, c, rfl, hq, rfl⟩ |
        ⟨p, rfl, hq, rfl⟩ | ⟨rfl, hq, hint, rfl⟩ | ⟨p, rfl, hq, rfl⟩ |
        ⟨p, c, rfl, hq, rfl⟩ | ⟨p, r, c, rfl, hq, rfl⟩ | ⟨p, r, c, rfl, hq, hint, rfl⟩ |
        ⟨rfl, hq, hcl, rfl⟩ | ⟨rfl, hq, rfl⟩ | ⟨rfl, hq, rfl⟩ | ⟨rfl, hint, rfl⟩ |
        ⟨rfl, hint, rfl⟩ | ⟨rfl, hcl, rfl⟩ | ⟨rfl, hcl, rfl⟩ <;>
      simp_all

/-- A wrapper at the top of the loop with BOTH the interrupt and close
signals already fired: readiness still happens first and is unaffected. -/
def c8ReadyState : WState :=
  { phase := .ready
    interruptClosed := true
    closeClosed := true
    closedClosed := false
    terminateCount := 0
    workerInterruptCount := 1
    accepted := []
    delivered := []
    runLog := []
    panicked := false }

/-- Witness for C8 at `c8ReadyState`: the step out of the top of the loop is
the readiness return, even with interrupt and close fired. -/
theorem c8_witness :
    Action.blockReady = Action.blockReady
    ∧ ({ c8ReadyState with phase := Phase.offering } : WState)
        = { c8ReadyState with phase := Phase.offering } :=
  (c8_block_until_ready_first_then_offer_or_close (fun n => n + n)).1
    c8ReadyState Action.blockReady { c8ReadyState with phase := Phase.offering }
    (by decide) rfl (by decide)

/-- **C9** — `join()` only reads `closedChan` (line 147), so it is safe for
any number of calls and callers: a call returns exactly when `closedChan` is
closed, which in every reachable state happens exactly when the run loop has
exited (second conjunct), and once it is closed it stays closed forever
(first conjunct) — `closedChan` is never written, only closed once by the
exiting goroutine, so a `join()` after a previous `join()` returned
completes immediately. -/
theorem c9_join_idempotent_nonblocking (process : Nat → Nat) :
    (∀ s a s', step process s a = some s' → canJoin s = true → canJoin s' = true)
    ∧ (∀ acts s, steps process initState acts = some s →
        (canJoin s = true ↔ s.phase = Phase.closed)) := by
  constructor
  · intro s a s' h hc
    rcases step_cases h with
        ⟨rfl, hq, rfl⟩ | ⟨rfl, hq, rfl⟩ | ⟨p, rfl, hq, rfl⟩ | ⟨p, c, rfl, hq, rfl⟩ |
        ⟨p, rfl, hq, rfl⟩ | ⟨rfl, hq, hint, rfl⟩ | ⟨p, rfl, hq, rfl⟩ |
        ⟨p, c, rfl, hq, rfl⟩ | ⟨p, r, c, rfl, hq, rfl⟩ | ⟨p, r, c, rfl, hq, hint, rfl⟩ |
        ⟨rfl, hq, hcl, rfl⟩ | ⟨rfl, hq, rfl⟩ | ⟨rfl, hq, rfl⟩ | ⟨rfl, hint, rfl⟩ |
        ⟨rfl, hint, rfl⟩ | ⟨rfl, hcl, rfl⟩ | ⟨rfl, hcl, rfl⟩ <;>
      simp_all [canJoin]
  · intro acts s h
    exact (lifecycleInv_reachable process acts s h).2.2

/-- The state after a full shutdown, for the C9 witness. -/
def c9ClosedState : WState :=
  { phase := .closed
    interruptClosed := false
    closeClosed := true
    closedClosed := true
    terminateCount := 1
    workerInterruptCount := 0
    accepted := []
    delivered := []
    runLog := []
    panicked := false }

/-- Witness for C9: after shutdown, `join()` can still return (monotone
under a further external call), and joinability coincides with the loop
having exited. -/
theorem c9_witness :
    canJoin { c9ClosedState with panicked := true } = true
    ∧ (canJoin c9ClosedState = true ↔ c9ClosedState.phase = Phase.closed) :=
  ⟨(c9_join_idempotent_nonblocking (fun n => n + n)).1 c9ClosedState
      Action.stopCall { c9ClosedState with panicked := true } (by decide) rfl,
   (c9_join_idempotent_nonblocking (fun n => n + n)).2
      [.blockReady, .stopCall, .observeClose, .doTerminate, .signalClosed]
      c9ClosedState (by decide)⟩

/-- **C10** — If the request received on `reqChan` has a dynamic type other
than `*runRequest` or `*processRequest` (such as a bare `*workRequest`,
which also implements the `request` interface), the type switch of lines
118-129 has no matching case and no `default`: the wrapper consumes the
request silently — no capability call occurs, nothing is sent on any
channel, no log or counter changes — and returns to the top of the loop
(idle): the post-state is the pre-state with only the control location
reset. -/
theorem c10_unmatched_request_silently_consumed (process : Nat → Nat)
    (s : WState) (p : Nat) (hph : s.phase = Phase.waitingReq) :
    step process s (.recvReq (.workRequest p)) = some { s with phase := Phase.ready } := by
  simp [step, hph]

/-- A wrapper in the inner waiting step, for the C10 witness. -/
def c10WaitState : WState :=
  { phase := .waitingReq
    interruptClosed := false
    closeClosed := false
    closedClosed := false
    terminateCount := 0
    workerInterruptCount := 0
    accepted := []
    delivered := []
    runLog := []
    panicked := false }

/-- Witness for C10: a `*workRequest` with payload 9 is consumed silently. -/
theorem c10_witness :
    step (fun n => n + n) c10WaitState (.recvReq (.workRequest 9))
      = some { c10WaitState with phase := Phase.ready } :=
  c10_unmatched_request_silently_consumed (fun n => n + n) c10WaitState 9 rfl

end Tunny
